import Mathlib

/-!
Verification model of the PERMA well-being backend (src/main.py, src/schemas.py).

The backend is a thin HTTP layer over a Mongo-style document store.  We give a
shallow embedding:

* collections are Lean lists of documents; the store's `find_one`, `update_one`,
  `delete_one` are first-match operations on those lists (the store is treated,
  as in the spec, as an external collaborator with a filter-document query
  model; `database.create_document` is not part of src/ and is modelled from
  the spec as insert-with-fresh-identifier-and-creation-timestamp);
* calendar dates handled by the endpoints are modelled as day ordinals
  (integers): `datetime.fromisoformat(s).date().toordinal()` maps valid ISO
  `YYYY-MM-DD` strings injectively and monotonically to integers, and Mongo's
  lexicographic sort on such strings agrees with the ordinal order.  The
  schema-validation layer (src/schemas.py), which sees raw strings, is
  modelled separately with `String` dates;
* timestamps (`created_at` / `updated_at`) are uninterpreted integers;
* Python truthiness of strings (`x or y`) is modelled explicitly: `None` and
  `""` are falsy.
-/

namespace Perma

/-- Python `s or d` for an optional string `s`: `None` and the empty string
are falsy and fall through to the default. -/
def pyOrStr (s : Option String) (d : String) : String :=
  match s with
  | none => d
  | some v => if v = "" then d else v

/-- `get_user_id` from src/main.py: the caller's identity header, defaulting
to the fixed anonymous identity when absent or empty. -/
def get_user_id (header : Option String) : String :=
  pyOrStr header "anon"

/-- Mongo-style `update_one`: rewrite the first document matching the filter
with the update function; return the new collection and the matched count
(0 or 1). -/
def update_one {α : Type} (store : List α) (pred : α → Bool) (f : α → α) :
    List α × Nat :=
  match store with
  | [] => ([], 0)
  | g :: rest =>
    if pred g then (f g :: rest, 1)
    else
      let r := update_one rest pred f
      (g :: r.1, r.2)

/-- Mongo-style `delete_one`: remove the first document matching the filter;
return the new collection and the deleted count (0 or 1). -/
def delete_one {α : Type} (store : List α) (pred : α → Bool) :
    List α × Nat :=
  match store with
  | [] => ([], 0)
  | g :: rest =>
    if pred g then (rest, 1)
    else
      let r := delete_one rest pred
      (g :: r.1, r.2)

/-! ## Check-in documents and the upsert rule (src/main.py, create_checkin) -/

/-- A stored check-in document.  `id` stands for the Mongo `_id`; `date` is
the parsed day ordinal of the stored ISO date string.  The five scores are
optional because a raw store document may lack a field (the aggregator reads
them with `d.get(k, 0)`). -/
structure CheckinDoc where
  id : Nat
  user_id : String
  date : Int
  p : Option Int
  e : Option Int
  r : Option Int
  m : Option Int
  a : Option Int
  note : Option String
  created_at : Option Int
  updated_at : Option Int
deriving DecidableEq, Repr

/-- A validated check-in payload as produced by the schema layer
(src/schemas.py `CheckIn` after validation), with the date as a day ordinal. -/
structure CheckinPayload where
  user_id : Option String
  date : Int
  p : Int
  e : Int
  r : Int
  m : Int
  a : Int
  note : Option String
deriving DecidableEq, Repr

/-- The `checkin` collection together with the store's fresh-identifier
supply. -/
structure CheckinState where
  docs : List CheckinDoc
  nextId : Nat
deriving Repr

/-- Store well-formedness: Mongo `_id`s are unique and the identifier supply
is fresh. -/
def CheckinState.WF (st : CheckinState) : Prop :=
  (st.docs.map (·.id)).Nodup ∧ ∀ d ∈ st.docs, d.id < st.nextId

/-- Filter document `{"user_id": uid, "date": dt}`. -/
def matchesPair (uid : String) (dt : Int) (d : CheckinDoc) : Bool :=
  d.user_id == uid && d.date == dt

/-- The payload fields written by `create_checkin` (the `data` dict of
`payload.model_dump()` with the resolved user id), applied to a document by
`$set`: every payload field is overwritten, plus `updated_at`; `_id` and
`created_at` are untouched. -/
def setPayload (uid : String) (payload : CheckinPayload) (now : Int)
    (d : CheckinDoc) : CheckinDoc :=
  { d with
    user_id := uid
    date := payload.date
    p := some payload.p
    e := some payload.e
    r := some payload.r
    m := some payload.m
    a := some payload.a
    note := payload.note
    updated_at := some now }

/-- `create_checkin` from src/main.py.  Resolves the user id (payload value
wins unless absent or empty, else header, else `"anon"`), looks up an
existing record for `(user_id, date)`, and either `$set`s all payload fields
on it (preserving `_id` and `created_at`) or inserts a fresh document.
The insert path is `database.create_document`, which is not under src/ and is
modelled from the spec: the store assigns a fresh unique identifier and a
creation timestamp.  Returns the resulting collection state and the document
the endpoint reads back and returns. -/
def create_checkin (st : CheckinState) (payload : CheckinPayload)
    (header : Option String) (now : Int) : CheckinState × Option CheckinDoc :=
  let uid := pyOrStr payload.user_id (get_user_id header)
  match st.docs.find? (matchesPair uid payload.date) with
  | some existing =>
    let r := update_one st.docs (fun d => d.id == existing.id)
      (setPayload uid payload now)
    ({ st with docs := r.1 }, r.1.find? (fun d => d.id == existing.id))
  | none =>
    let created : CheckinDoc :=
      { id := st.nextId
        user_id := uid
        date := payload.date
        p := some payload.p
        e := some payload.e
        r := some payload.r
        m := some payload.m
        a := some payload.a
        note := payload.note
        created_at := some now
        updated_at := none }
    ({ docs := st.docs ++ [created], nextId := st.nextId + 1 },
      (st.docs ++ [created]).find? (fun d => d.id == st.nextId))

/-! ## Goals (src/schemas.py Goal, src/main.py goal endpoints) -/

/-- PERMA dimension enum (`Literal['P','E','R','M','A']`). -/
inductive Dimension | P | E | R | M | A
deriving DecidableEq, Repr

/-- Goal cadence enum (`Literal['daily','weekly','adhoc']`). -/
inductive Cadence | daily | weekly | adhoc
deriving DecidableEq, Repr

/-- Goal status enum (`Literal['active','done','archived']`). -/
inductive Status | active | done | archived
deriving DecidableEq, Repr

/-- A stored goal document (`goal` collection). -/
structure GoalDoc where
  id : Nat
  user_id : String
  title : String
  dimension : Dimension
  cadence : Cadence
  status : Status
  progress : Int
  created_at : Option Int
  updated_at : Option Int
deriving DecidableEq, Repr

/-- The `GoalPatch` request model of src/main.py: every field optional. -/
structure GoalPatch where
  title : Option String
  dimension : Option Dimension
  cadence : Option Cadence
  status : Option Status
  progress : Option Int
deriving DecidableEq, Repr

/-- Whether `payload.model_dump()` has at least one non-None field (the
`updates` dict of `update_goal` is nonempty). -/
def GoalPatch.hasUpdates (p : GoalPatch) : Bool :=
  p.title.isSome || p.dimension.isSome || p.cadence.isSome ||
    p.status.isSome || p.progress.isSome

/-- The `$set` of `update_goal`: apply every non-None patch field, plus a
fresh `updated_at`; all other fields are untouched. -/
def applyPatch (p : GoalPatch) (now : Int) (g : GoalDoc) : GoalDoc :=
  { g with
    title := p.title.getD g.title
    dimension := p.dimension.getD g.dimension
    cadence := p.cadence.getD g.cadence
    status := p.status.getD g.status
    progress := p.progress.getD g.progress
    updated_at := some now }

/-- Error responses of the goal endpoints: 400 invalid id, 400 empty patch,
404 not found. -/
inductive GoalError | invalidId | noUpdates | notFound
deriving DecidableEq, Repr

/-- `update_goal` from src/main.py (after the ObjectId parse, so `gid` is an
already well-formed identifier).  Rejects an all-None patch, then issues
`update_one({_id: gid, user_id: caller}, {$set: updates + updated_at})`; a
matched count of 0 is reported as not-found, otherwise the endpoint reads the
document back by `_id` alone and returns it.  The second component is the
collection after the call. -/
def update_goal (store : List GoalDoc) (gid : Nat) (patch : GoalPatch)
    (header : Option String) (now : Int) :
    Except GoalError (Option GoalDoc) × List GoalDoc :=
  let uid := get_user_id header
  if patch.hasUpdates then
    let r := update_one store (fun g => g.id == gid && g.user_id == uid)
      (applyPatch patch now)
    if r.2 = 0 then (.error .notFound, r.1)
    else (.ok (r.1.find? (fun g => g.id == gid)), r.1)
  else (.error .noUpdates, store)

/-- `delete_goal` from src/main.py (after the ObjectId parse): issues
`delete_one({_id: gid, user_id: caller})`; a deleted count of 0 is reported
as not-found.  The second component is the collection after the call. -/
def delete_goal (store : List GoalDoc) (gid : Nat) (header : Option String) :
    Except GoalError Unit × List GoalDoc :=
  let uid := get_user_id header
  let r := delete_one store (fun g => g.id == gid && g.user_id == uid)
  if r.2 = 0 then (.error .notFound, r.1) else (.ok (), r.1)

/-! ## Schema validation (src/schemas.py, pydantic models) -/

/-- A raw goal-creation payload before validation: each field is present or
absent.  Enum-valued fields arrive as raw strings. -/
structure GoalInput where
  user_id : Option String
  title : Option String
  dimension : Option String
  cadence : Option String
  status : Option String
  progress : Option Int
deriving DecidableEq, Repr

/-- A validated `Goal` payload (src/schemas.py `Goal`). -/
structure GoalPayload where
  user_id : Option String
  title : String
  dimension : Dimension
  cadence : Cadence
  status : Status
  progress : Int
deriving DecidableEq, Repr

/-- Parse of the `Literal['P','E','R','M','A']` annotation. -/
def parseDimension : String → Option Dimension
  | "P" => some .P
  | "E" => some .E
  | "R" => some .R
  | "M" => some .M
  | "A" => some .A
  | _ => none

/-- Parse of the `Literal['daily','weekly','adhoc']` annotation. -/
def parseCadence : String → Option Cadence
  | "daily" => some .daily
  | "weekly" => some .weekly
  | "adhoc" => some .adhoc
  | _ => none

/-- Parse of the `Literal['active','done','archived']` annotation. -/
def parseStatus : String → Option Status
  | "active" => some .active
  | "done" => some .done
  | "archived" => some .archived
  | _ => none

/-- Pydantic validation of the `Goal` model exactly as declared in
src/schemas.py: `title : str` must be present (any string, emptiness is not
checked); `dimension` must be present and a valid enum value; `cadence` and
`status` default to `daily` / `active` when absent; `progress` defaults to 0
and must lie in [0, 100].  Returns `none` on validation failure (HTTP 422,
before any core logic runs). -/
def validateGoal (inp : GoalInput) : Option GoalPayload :=
  match inp.title, inp.dimension with
  | some t, some dimRaw =>
    match parseDimension dimRaw with
    | none => none
    | some dim =>
      match (match inp.cadence with
             | none => some Cadence.daily
             | some c => parseCadence c) with
      | none => none
      | some cad =>
        match (match inp.status with
               | none => some Status.active
               | some s => parseStatus s) with
        | none => none
        | some stt =>
          let pr := inp.progress.getD 0
          if 0 ≤ pr ∧ pr ≤ 100 then
            some { user_id := inp.user_id, title := t, dimension := dim,
                   cadence := cad, status := stt, progress := pr }
          else none
  | _, _ => none

/-- A raw check-in payload before validation (src/schemas.py `CheckIn`), with
the date still a raw string as it arrives on the wire. -/
structure CheckinInput where
  user_id : Option String
  date : Option String
  p : Option Int
  e : Option Int
  r : Option Int
  m : Option Int
  a : Option Int
  note : Option String
deriving DecidableEq, Repr

/-- A validated `CheckIn` payload at the schema layer, date still a string
(src/schemas.py declares `date : str` — a plain string). -/
structure CheckinStrPayload where
  user_id : Option String
  date : String
  p : Int
  e : Int
  r : Int
  m : Int
  a : Int
  note : Option String
deriving DecidableEq, Repr

/-- Pydantic validation of the `CheckIn` model exactly as declared in
src/schemas.py: the five scores are required and constrained to [0, 10];
`date : str` is a plain string field, so any string is accepted, with
today's ISO string as the default when the field is absent; `user_id` and
`note` are optional.  No date-format check is declared anywhere in the
model. -/
def validateCheckIn (inp : CheckinInput) (todayIso : String) :
    Option CheckinStrPayload :=
  match inp.p, inp.e, inp.r, inp.m, inp.a with
  | some p, some e, some r, some m, some a =>
    if 0 ≤ p ∧ p ≤ 10 ∧ 0 ≤ e ∧ e ≤ 10 ∧ 0 ≤ r ∧ r ≤ 10 ∧
        0 ≤ m ∧ m ≤ 10 ∧ 0 ≤ a ∧ a ≤ 10 then
      some { user_id := inp.user_id, date := inp.date.getD todayIso,
             p := p, e := e, r := r, m := m, a := a, note := inp.note }
    else none
  | _, _, _, _, _ => none

/-- Modelled from the spec: a well-formed ISO 8601 calendar date string
`YYYY-MM-DD` (digits in the digit positions, dashes in the dash positions,
month in 1..12, day within the month's length, Gregorian leap rule).  The
spec's validation taxonomy speaks of "malformed dates"; this predicate is
that notion. -/
def isIsoDate (s : String) : Bool :=
  match s.toList with
  | [y1, y2, y3, y4, h1, m1, m2, h2, d1, d2] =>
    let dig := fun (c : Char) => ('0' ≤ c && c ≤ '9')
    if dig y1 && dig y2 && dig y3 && dig y4 && h1 == '-' &&
        dig m1 && dig m2 && h2 == '-' && dig d1 && dig d2 then
      let nv := fun (c : Char) => c.toNat - '0'.toNat
      let y := 1000 * nv y1 + 100 * nv y2 + 10 * nv y3 + nv y4
      let mo := 10 * nv m1 + nv m2
      let da := 10 * nv d1 + nv d2
      let leap := (y % 4 == 0 && y % 100 != 0) || y % 400 == 0
      let mlen : Nat :=
        if mo = 2 then (if leap then 29 else 28)
        else if mo = 4 ∨ mo = 6 ∨ mo = 9 ∨ mo = 11 then 30
        else 31
      1 ≤ mo && mo ≤ 12 && 1 ≤ da && da ≤ mlen && 1 ≤ y
    else false
  | _ => false

/-! ## Reflections (src/schemas.py Reflection, src/main.py create_reflection) -/

/-- A validated `Reflection` payload. -/
structure ReflectionPayload where
  user_id : Option String
  text : String
  tags : List String
  date : String
deriving DecidableEq, Repr

/-- A stored reflection document. -/
structure ReflectionDoc where
  id : Nat
  user_id : String
  text : String
  tags : List String
  date : String
  created_at : Option Int
deriving DecidableEq, Repr

/-- `create_reflection` from src/main.py: resolve the user id the same way as
check-ins and goals, then insert via `database.create_document` (not under
src/; modelled from the spec as insert-with-fresh-identifier-and-creation-
timestamp) and read the new document back. -/
def create_reflection (store : List ReflectionDoc) (nextId : Nat)
    (payload : ReflectionPayload) (header : Option String) (now : Int) :
    List ReflectionDoc × ReflectionDoc :=
  let uid := pyOrStr payload.user_id (get_user_id header)
  let doc : ReflectionDoc :=
    { id := nextId, user_id := uid, text := payload.text,
      tags := payload.tags, date := payload.date, created_at := some now }
  (store ++ [doc], doc)

/-- `create_goal` from src/main.py: resolve the user id (payload value wins
unless absent or empty), insert via `database.create_document` (not under
src/; modelled from the spec as insert-with-fresh-identifier-and-creation-
timestamp) and read the new document back. -/
def create_goal (store : List GoalDoc) (nextId : Nat) (payload : GoalPayload)
    (header : Option String) (now : Int) : List GoalDoc × GoalDoc :=
  let uid := pyOrStr payload.user_id (get_user_id header)
  let doc : GoalDoc :=
    { id := nextId, user_id := uid, title := payload.title,
      dimension := payload.dimension, cadence := payload.cadence,
      status := payload.status, progress := payload.progress,
      created_at := some now, updated_at := none }
  (store ++ [doc], doc)

/-! ## Summary aggregator (src/main.py, stats_summary) -/

/-- Round-half-even of `100 * q` to an integer, computed on the reduced
numerator and denominator: `f` is `⌊100 q⌋` (floor division) and `r` the
remainder, so `2 r` against the denominator decides below/above/at the
half-way point, half-way going to the even neighbour.  Python's `round`
rounds half to even; for the values this endpoint produces (an integer score
sum in [0, 3650] divided by a record count in [1, 365]), the binary double
computed by Python only lands exactly on a two-decimal half-way point when
the rational itself is dyadic, where the decimal and rational half-even
rules agree, so the rational model is used for both the code side and the
spec side of the rounding. -/
def scaledBankersRound (q : ℚ) : ℤ :=
  let n100 := 100 * q.num
  let d := (q.den : ℤ)
  let f := Int.fdiv n100 d
  let r := n100 - f * d
  if 2 * r < d then f
  else if d < 2 * r then f + 1
  else if f % 2 = 0 then f else f + 1

/-- `round(q, 2)`: round to two decimal places, half to even. -/
def round2 (q : ℚ) : ℚ :=
  (scaledBankersRound q : ℚ) / 100

/-- Stable insertion of a document into a list sorted by date descending:
the new document goes after every document whose date is at least as large
(so insertion order is preserved among equal dates). -/
def insertByDateDesc (x : CheckinDoc) : List CheckinDoc → List CheckinDoc
  | [] => [x]
  | y :: ys =>
    if y.date < x.date then x :: y :: ys else y :: insertByDateDesc x ys

/-- Stable sort by date, descending (`.sort("date", -1)` on ISO strings,
whose lexicographic order agrees with the day-ordinal order). -/
def sortByDateDesc (l : List CheckinDoc) : List CheckinDoc :=
  l.foldr insertByDateDesc []

/-- The fetch of `stats_summary` and its `limit`:
`db["checkin"].find({"user_id": uid}).sort("date", -1).limit(days)`. -/
def fetchDocs (store : List CheckinDoc) (uid : String) (days : Nat) :
    List CheckinDoc :=
  (sortByDateDesc (store.filter (fun d => d.user_id == uid))).take days

/-- Insert a date into a strictly descending list of dates, dropping
duplicates: together with `uniqueDatesDesc` this models Python's
`sorted({...}, reverse=True)`. -/
def insertDesc (x : Int) : List Int → List Int
  | [] => [x]
  | y :: ys =>
    if y < x then x :: y :: ys
    else if x = y then y :: ys
    else y :: insertDesc x ys

/-- `sorted({parse(d["date"]) for d in docs}, reverse=True)`: the distinct
check-in dates, strictly descending. -/
def uniqueDatesDesc (dates : List Int) : List Int :=
  dates.foldr insertDesc []

/-- The streak loop of `stats_summary`: walk the strictly descending list of
distinct dates, matching `expected` (initially today) and stepping back one
calendar day per match; stop at the first mismatch. -/
def streakWalk : List Int → Int → Nat
  | [], _ => 0
  | d :: rest, expected =>
    if d = expected then streakWalk rest (expected - 1) + 1 else 0

/-- The `avg` object of the summary response: each dimension either a number
or null. -/
structure AvgResult where
  p : Option ℚ
  e : Option ℚ
  r : Option ℚ
  m : Option ℚ
  a : Option ℚ
deriving DecidableEq, Repr

/-- The summary response `{count, avg, latest, streak}`. -/
structure SummaryResult where
  count : Nat
  avg : AvgResult
  latest : Option CheckinDoc
  streak : Nat
deriving Repr

/-- The per-dimension accumulation of `stats_summary`:
`sums[k] += int(d.get(k, 0))` — a missing score field counts as 0. -/
def dimSum (sel : CheckinDoc → Option Int) (docs : List CheckinDoc) : Int :=
  (docs.map (fun d => (sel d).getD 0)).sum

/-- `stats_summary` from src/main.py: fetch the user's `days` most recent
check-ins (date descending), return the all-null response when none exist,
otherwise the per-dimension rounded means over exactly the fetched records,
the most recent record, and the consecutive-day streak walked backward from
the aggregation's wall-clock `today`. -/
def stats_summary (store : List CheckinDoc) (uid : String) (days : Nat)
    (today : Int) : SummaryResult :=
  let docs := fetchDocs store uid days
  match docs with
  | [] =>
    { count := 0
      avg := { p := none, e := none, r := none, m := none, a := none }
      latest := none
      streak := 0 }
  | d0 :: rest =>
    let docs := d0 :: rest
    let n := docs.length
    let avgOf := fun (sel : CheckinDoc → Option Int) =>
      round2 ((dimSum sel docs : ℚ) / (n : ℚ))
    { count := n
      avg := { p := some (avgOf (·.p)), e := some (avgOf (·.e)),
               r := some (avgOf (·.r)), m := some (avgOf (·.m)),
               a := some (avgOf (·.a)) }
      latest := some d0
      streak := streakWalk (uniqueDatesDesc (docs.map (·.date))) today }

/-- The spec's Step 3, in the spec's words: the arithmetic mean of a
dimension's values across exactly the given records, a missing score field
counted as 0 before summing. -/
def arithmeticMean (sel : CheckinDoc → Option Int) (docs : List CheckinDoc) :
    ℚ :=
  ((docs.map (fun d => ((sel d).getD 0 : ℚ))).sum) / (docs.length : ℚ)

/-- Whether the user has a stored check-in dated `dt` — the spec's
"check-in on day dt", over the user's full history in the store. -/
def userHasCheckinOn (store : List CheckinDoc) (uid : String) (dt : Int) :
    Prop :=
  ∃ d ∈ store, d.user_id = uid ∧ d.date = dt

/-! ## Concrete fixtures used by witnesses and counterexamples -/

/-- Fixture: a check-in document with the given identifier, user, date
ordinal, and a uniform score on all five dimensions. -/
def mkDoc (i : Nat) (u : String) (dt : Int) (s : Int) : CheckinDoc :=
  { id := i, user_id := u, date := dt, p := some s, e := some s, r := some s,
    m := some s, a := some s, note := none, created_at := none,
    updated_at := none }

/-- Fixture: user `"u"` has a check-in today (ordinal 0) and one yesterday. -/
def twoDayStore : List CheckinDoc := [mkDoc 0 "u" 0 5, mkDoc 1 "u" (-1) 4]

/-- Fixture: an empty check-in collection. -/
def emptyCheckins : CheckinState := { docs := [], nextId := 0 }

/-- Fixture: a first submission for user `"u"` on day 7. -/
def payloadA : CheckinPayload :=
  { user_id := some "u", date := 7, p := 3, e := 3, r := 3, m := 3, a := 3,
    note := none }

/-- Fixture: a second submission for the same user and day with different
scores. -/
def payloadB : CheckinPayload :=
  { user_id := some "u", date := 7, p := 9, e := 8, r := 7, m := 6, a := 5,
    note := some "better" }

/-- Fixture: a check-in payload carrying its own user id. -/
def wCheckinPayload : CheckinPayload :=
  { user_id := some "alice", date := 7, p := 1, e := 2, r := 3, m := 4,
    a := 5, note := none }

/-- Fixture: a goal payload carrying its own user id. -/
def wGoalPayload : GoalPayload :=
  { user_id := some "alice", title := "run", dimension := .P,
    cadence := .daily, status := .active, progress := 0 }

/-- Fixture: a reflection payload carrying its own user id. -/
def wReflectionPayload : ReflectionPayload :=
  { user_id := some "alice", text := "first note", tags := [],
    date := "2024-01-05" }

/-- Fixture: a stored goal owned by `"alice"`. -/
def goalA : GoalDoc :=
  { id := 5, user_id := "alice", title := "run", dimension := .P,
    cadence := .daily, status := .active, progress := 10,
    created_at := some 100, updated_at := none }

/-- Fixture: a patch supplying only the progress field. -/
def progressPatch : GoalPatch :=
  { title := none, dimension := none, cadence := none, status := none,
    progress := some 50 }

/-! ## Store-operation lemmas -/

theorem find?_append_of_none {α : Type} {p : α → Bool} {l1 l2 : List α}
    (h : ∀ y ∈ l1, p y = false) : (l1 ++ l2).find? p = l2.find? p := by
  induction l1 with
  | nil => rfl
  | cons x xs ih =>
    simp only [List.cons_append, List.find?]
    rw [h x (by simp)]
    exact ih fun y hy => h y (by simp [hy])

theorem update_one_of_none {α : Type} {p : α → Bool} {f : α → α}
    {l : List α} (h : ∀ y ∈ l, p y = false) : update_one l p f = (l, 0) := by
  induction l with
  | nil => rfl
  | cons x xs ih =>
    simp only [update_one]
    rw [h x (by simp)]
    simp [ih fun y hy => h y (by simp [hy])]

theorem update_one_parts {α : Type} {p : α → Bool} {f : α → α}
    {pre post : List α} {x : α} (hpre : ∀ y ∈ pre, p y = false)
    (hx : p x = true) :
    update_one (pre ++ x :: post) p f = (pre ++ f x :: post, 1) := by
  induction pre with
  | nil => simp [update_one, hx]
  | cons z zs ih =>
    simp only [List.cons_append, update_one]
    rw [hpre z (by simp)]
    simp [ih fun y hy => hpre y (by simp [hy])]

theorem delete_one_of_none {α : Type} {p : α → Bool}
    {l : List α} (h : ∀ y ∈ l, p y = false) : delete_one l p = (l, 0) := by
  induction l with
  | nil => rfl
  | cons x xs ih =>
    simp only [delete_one]
    rw [h x (by simp)]
    simp [ih fun y hy => h y (by simp [hy])]

/-! ## Streak lemmas -/

theorem insertDesc_mem {y x : Int} {l : List Int} :
    y ∈ insertDesc x l ↔ y = x ∨ y ∈ l := by
  induction l with
  | nil => simp [insertDesc]
  | cons z zs ih =>
    simp only [insertDesc]
    by_cases h1 : z < x
    · simp [h1, List.mem_cons]
    · by_cases h2 : x = z
      · subst h2
        rw [if_neg h1, if_pos rfl]
        simp only [List.mem_cons]
        tauto
      · simp only [if_neg h1, if_neg h2, List.mem_cons, ih]
        tauto

theorem insertDesc_pairwise {x : Int} {l : List Int}
    (h : l.Pairwise (· > ·)) : (insertDesc x l).Pairwise (· > ·) := by
  induction l with
  | nil => simp [insertDesc]
  | cons z zs ih =>
    rw [List.pairwise_cons] at h
    simp only [insertDesc]
    by_cases h1 : z < x
    · rw [if_pos h1]
      refine List.pairwise_cons.2 ⟨?_, List.pairwise_cons.2 ⟨h.1, h.2⟩⟩
      intro a ha
      rcases List.mem_cons.1 ha with rfl | ha
      · exact h1
      · exact lt_trans (h.1 a ha) h1
    · by_cases h2 : x = z
      · rw [if_neg h1, if_pos h2]
        exact List.pairwise_cons.2 ⟨h.1, h.2⟩
      · rw [if_neg h1, if_neg h2]
        refine List.pairwise_cons.2 ⟨?_, ih h.2⟩
        intro a ha
        rcases insertDesc_mem.1 ha with rfl | ha
        · exact lt_of_le_of_ne (not_lt.1 h1) h2
        · exact h.1 a ha

theorem uniqueDatesDesc_pairwise (l : List Int) :
    (uniqueDatesDesc l).Pairwise (· > ·) := by
  induction l with
  | nil => simp [uniqueDatesDesc]
  | cons x xs ih => exact insertDesc_pairwise ih

theorem uniqueDatesDesc_mem {y : Int} {l : List Int} :
    y ∈ uniqueDatesDesc l ↔ y ∈ l := by
  induction l with
  | nil => simp [uniqueDatesDesc]
  | cons x xs ih =>
    simp only [uniqueDatesDesc, List.foldr_cons, List.mem_cons]
    rw [show List.foldr insertDesc [] xs = uniqueDatesDesc xs from rfl] at *
    rw [insertDesc_mem, ih]

theorem streakWalk_cons_self (d : Int) (rest : List Int) :
    streakWalk (d :: rest) d = streakWalk rest (d - 1) + 1 := by
  simp [streakWalk]

theorem streakWalk_cons_ne {d t : Int} (rest : List Int) (h : d ≠ t) :
    streakWalk (d :: rest) t = 0 := by
  simp [streakWalk, h]

theorem streakWalk_eq_zero_of_not_mem {L : List Int} {t : Int}
    (h : t ∉ L) : streakWalk L t = 0 := by
  cases L with
  | nil => rfl
  | cons d rest =>
    exact streakWalk_cons_ne rest fun hdt => h (hdt ▸ List.mem_cons_self d rest)

theorem streakWalk_pos_of_mem_max {L : List Int} {t : Int}
    (hL : L.Pairwise (· > ·)) (hmem : t ∈ L) (hle : ∀ d ∈ L, d ≤ t) :
    1 ≤ streakWalk L t := by
  cases L with
  | nil => simp at hmem
  | cons d rest =>
    have hdt : d = t := by
      rcases List.mem_cons.1 hmem with h | h
      · exact h.symm
      · rw [List.pairwise_cons] at hL
        have h1 := hL.1 t h
        have h2 := hle d (by simp)
        omega
    subst hdt
    rw [streakWalk_cons_self]
    omega

theorem streakWalk_sound {L : List Int} {t : Int} {K : Nat}
    (hL : L.Pairwise (· > ·)) (hK : 1 ≤ K) (hw : streakWalk L t = K) :
    (∀ i : Nat, i < K → (t - i : ℤ) ∈ L) ∧ ((t - K : ℤ) ∉ L) ∧
      ∀ d ∈ L, d ≤ t := by
  induction L generalizing t K with
  | nil => simp [streakWalk] at hw; omega
  | cons d rest ih =>
    rw [List.pairwise_cons] at hL
    by_cases hd : d = t
    · subst hd
      rw [streakWalk_cons_self] at hw
      have hle : ∀ x ∈ d :: rest, x ≤ d := by
        intro x hx
        rcases List.mem_cons.1 hx with rfl | hx
        · exact le_refl _
        · exact le_of_lt (hL.1 x hx)
      rcases Nat.exists_eq_add_of_le hK with ⟨K', rfl⟩
      by_cases hK' : 1 ≤ K'
      · have hw' : streakWalk rest (d - 1) = K' := by omega
        obtain ⟨h1, h2, h3⟩ := ih hL.2 hK' hw'
        refine ⟨?_, ?_, hle⟩
        · intro i hi
          cases i with
          | zero => simp
          | succ j =>
            have hj : j < K' := by omega
            have hmem := h1 j hj
            have hcast : (d - (j + 1 : Nat) : ℤ) = d - 1 - j := by
              push_cast; ring
            rw [hcast]
            exact List.mem_cons_of_mem _ hmem
        · intro hmem
          have hcast : (d - (1 + K' : Nat) : ℤ) = d - 1 - (K' : ℤ) := by
            push_cast; ring
          rw [hcast] at hmem
          rcases List.mem_cons.1 hmem with heq | hmem
          · omega
          · exact h2 hmem
      · have hK0 : K' = 0 := by omega
        subst hK0
        have hw' : streakWalk rest (d - 1) = 0 := by omega
        refine ⟨?_, ?_, hle⟩
        · intro i hi
          have hi0 : i = 0 := by omega
          subst hi0; simp
        · intro hmem
          have hcast : (d - (1 + 0 : Nat) : ℤ) = d - 1 := by push_cast; ring
          rw [hcast] at hmem
          rcases List.mem_cons.1 hmem with heq | hmem
          · omega
          · have hle' : ∀ x ∈ rest, x ≤ d - 1 := by
              intro x hx
              have := hL.1 x hx
              omega
            have := streakWalk_pos_of_mem_max hL.2 hmem hle'
            omega
    · rw [streakWalk_cons_ne rest hd] at hw
      omega

theorem streakWalk_complete {L : List Int} {t : Int} {K : Nat}
    (hL : L.Pairwise (· > ·)) (hK : 1 ≤ K)
    (h1 : ∀ i : Nat, i < K → (t - i : ℤ) ∈ L) (h2 : (t - K : ℤ) ∉ L)
    (h3 : ∀ d ∈ L, d ≤ t) : streakWalk L t = K := by
  induction L generalizing t K with
  | nil =>
    exfalso
    have := h1 0 (by omega)
    simp at this
  | cons d rest ih =>
    rw [List.pairwise_cons] at hL
    have hdt : d = t := by
      have htmem : t ∈ d :: rest := by
        have := h1 0 (by omega)
        simpa using this
      rcases List.mem_cons.1 htmem with heq | hmem
      · exact heq.symm
      · exact absurd (h3 d (by simp)) (not_le.2 (hL.1 t hmem))
    subst hdt
    rw [streakWalk_cons_self]
    rcases Nat.exists_eq_add_of_le hK with ⟨K', rfl⟩
    by_cases hK' : 1 ≤ K'
    · have hrec : streakWalk rest (d - 1) = K' := by
        apply ih hL.2 hK'
        · intro i hi
          have hmem := h1 (i + 1) (by omega)
          have hcast : (d - (i + 1 : Nat) : ℤ) = d - 1 - i := by
            push_cast; ring
          rw [hcast] at hmem
          rcases List.mem_cons.1 hmem with heq2 | hmem
          · exfalso; omega
          · exact hmem
        · intro hmem
          have hcast : (d - 1 - (K' : ℤ)) = d - (1 + K' : Nat) := by
            push_cast; ring
          rw [hcast] at hmem
          exact h2 (List.mem_cons_of_mem _ hmem)
        · intro x hx
          have := hL.1 x hx
          omega
      omega
    · have hK0 : K' = 0 := by omega
      subst hK0
      have hrec : streakWalk rest (d - 1) = 0 := by
        apply streakWalk_eq_zero_of_not_mem
        intro hmem
        have hcast : (d - 1 : ℤ) = d - (1 + 0 : Nat) := by push_cast; ring
        exact h2 (hcast ▸ List.mem_cons_of_mem _ hmem)
      omega

theorem streakWalk_eq_iff {L : List Int} {t : Int} {K : Nat}
    (hL : L.Pairwise (· > ·)) (hK : 1 ≤ K) :
    streakWalk L t = K ↔
      (∀ i : Nat, i < K → (t - i : ℤ) ∈ L) ∧ ((t - K : ℤ) ∉ L) ∧
        ∀ d ∈ L, d ≤ t := by
  constructor
  · exact streakWalk_sound hL hK
  · intro h
    exact streakWalk_complete hL hK h.1 h.2.1 h.2.2

/-! ## Fetch and summary lemmas -/

theorem insertByDateDesc_mem {d x : CheckinDoc} {l : List CheckinDoc} :
    d ∈ insertByDateDesc x l ↔ d = x ∨ d ∈ l := by
  induction l with
  | nil => simp [insertByDateDesc]
  | cons y ys ih =>
    simp only [insertByDateDesc]
    by_cases h1 : y.date < x.date
    · simp [h1, List.mem_cons]
    · rw [if_neg h1]
      simp only [List.mem_cons, ih]
      tauto

theorem sortByDateDesc_mem {d : CheckinDoc} {l : List CheckinDoc} :
    d ∈ sortByDateDesc l ↔ d ∈ l := by
  induction l with
  | nil => simp [sortByDateDesc]
  | cons x xs ih =>
    simp only [sortByDateDesc, List.foldr_cons, List.mem_cons]
    rw [show List.foldr insertByDateDesc [] xs = sortByDateDesc xs from rfl]
    rw [insertByDateDesc_mem, ih]

theorem mem_of_mem_fetchDocs {store : List CheckinDoc} {uid : String}
    {days : Nat} {d : CheckinDoc} (h : d ∈ fetchDocs store uid days) :
    d ∈ store ∧ d.user_id = uid := by
  have h1 : d ∈ sortByDateDesc (store.filter (fun x => x.user_id == uid)) :=
    List.mem_of_mem_take h
  have h2 : d ∈ store.filter (fun x => x.user_id == uid) :=
    sortByDateDesc_mem.1 h1
  have h3 := List.mem_filter.1 h2
  exact ⟨h3.1, by simpa using h3.2⟩

theorem stats_summary_streak_eq (store : List CheckinDoc) (uid : String)
    (days : Nat) (today : Int) :
    (stats_summary store uid days today).streak =
      streakWalk (uniqueDatesDesc ((fetchDocs store uid days).map (·.date)))
        today := by
  unfold stats_summary
  cases h : fetchDocs store uid days with
  | nil => simp [uniqueDatesDesc, streakWalk]
  | cons d0 rest => simp

/-! ## Claims about the summary aggregator -/

/-- Claim C4: for every user and aggregation time, if the user has no
check-in dated today (the aggregation's wall-clock today), the summary's
streak is 0, regardless of any past check-in history. -/
theorem summary_streak_zero_of_no_today (store : List CheckinDoc)
    (uid : String) (days : Nat) (today : Int)
    (h : ∀ d ∈ store, d.user_id = uid → d.date ≠ today) :
    (stats_summary store uid days today).streak = 0 := by
  rw [stats_summary_streak_eq]
  apply streakWalk_eq_zero_of_not_mem
  intro hmem
  rw [uniqueDatesDesc_mem, List.mem_map] at hmem
  obtain ⟨d, hd, hdate⟩ := hmem
  obtain ⟨hst, huid⟩ := mem_of_mem_fetchDocs hd
  exact h d hst huid hdate

/-- Witness for C4: a user with only a yesterday check-in has streak 0
today. -/
theorem summary_streak_zero_of_no_today_witness :
    (∀ d ∈ [mkDoc 0 "u" (-1) 5], d.user_id = "u" → d.date ≠ 0) ∧
      (stats_summary [mkDoc 0 "u" (-1) 5] "u" 30 0).streak = 0 :=
  ⟨by decide,
    summary_streak_zero_of_no_today [mkDoc 0 "u" (-1) 5] "u" 30 0 (by decide)⟩

/-- Claim C5: for every user with no check-in records, the summary returns
count 0, null averages for all five dimensions, null latest, and streak 0. -/
theorem summary_empty_case (store : List CheckinDoc) (uid : String)
    (days : Nat) (today : Int) (h : ∀ d ∈ store, d.user_id ≠ uid) :
    stats_summary store uid days today =
      { count := 0
        avg := { p := none, e := none, r := none, m := none, a := none }
        latest := none
        streak := 0 } := by
  have hf : store.filter (fun d => d.user_id == uid) = [] := by
    rw [List.filter_eq_nil_iff]
    intro d hd
    simpa using h d hd
  unfold stats_summary fetchDocs
  rw [hf, show sortByDateDesc [] = [] from rfl, List.take_nil]

/-- Witness for C5: the summary for a user with no records is the all-null
response. -/
theorem summary_empty_case_witness :
    (∀ d ∈ [mkDoc 0 "v" 0 5], d.user_id ≠ "u") ∧
      stats_summary [mkDoc 0 "v" 0 5] "u" 30 0 =
        { count := 0
          avg := { p := none, e := none, r := none, m := none, a := none }
          latest := none
          streak := 0 } :=
  ⟨by decide, summary_empty_case [mkDoc 0 "v" 0 5] "u" 30 0 (by decide)⟩

/-- Claim C3: for every user with at least one fetched check-in, the
summary's average for each of the five dimensions equals the arithmetic
mean of that dimension's values across exactly the fetched records, rounded
to 2 decimal places, a missing score field counted as 0 before summing. -/
theorem summary_avg_is_rounded_mean (store : List CheckinDoc) (uid : String)
    (days : Nat) (today : Int) (h : fetchDocs store uid days ≠ []) :
    (stats_summary store uid days today).avg =
      { p := some (round2 (arithmeticMean (·.p) (fetchDocs store uid days)))
        e := some (round2 (arithmeticMean (·.e) (fetchDocs store uid days)))
        r := some (round2 (arithmeticMean (·.r) (fetchDocs store uid days)))
        m := some (round2 (arithmeticMean (·.m) (fetchDocs store uid days)))
        a := some (round2 (arithmeticMean (·.a) (fetchDocs store uid days)))
      } := by
  have key : ∀ (sel : CheckinDoc → Option Int) (docs : List CheckinDoc),
      round2 ((dimSum sel docs : ℚ) / (docs.length : ℚ)) =
        round2 (arithmeticMean sel docs) := by
    intro sel docs
    unfold dimSum arithmeticMean
    congr 1
    congr 1
    rw [Int.cast_list_sum, List.map_map]
    rfl
  unfold stats_summary
  cases hf : fetchDocs store uid days with
  | nil => exact absurd hf h
  | cons d0 rest =>
    simp only
    rw [← hf]
    simp only [key]

/-- Witness for C3: the averages over a two-record fetch. -/
theorem summary_avg_is_rounded_mean_witness :
    fetchDocs twoDayStore "u" 30 ≠ [] ∧
      (stats_summary twoDayStore "u" 30 0).avg =
        { p := some (round2 (arithmeticMean (·.p) (fetchDocs twoDayStore "u" 30)))
          e := some (round2 (arithmeticMean (·.e) (fetchDocs twoDayStore "u" 30)))
          r := some (round2 (arithmeticMean (·.r) (fetchDocs twoDayStore "u" 30)))
          m := some (round2 (arithmeticMean (·.m) (fetchDocs twoDayStore "u" 30)))
          a := some (round2 (arithmeticMean (·.a) (fetchDocs twoDayStore "u" 30)))
        } :=
  ⟨by decide, summary_avg_is_rounded_mean twoDayStore "u" 30 0 (by decide)⟩

/-- Claim C2 as stated is false on the code: with window size `days = 1`
(which is at least `K = 1`, and the fetched window also has size 1), user
`"u"` of `twoDayStore` has streak 1, yet a check-in does exist on day
`K+1`-before-today (ordinal −1), so the right-hand side of the claimed
equivalence fails while the left-hand side holds. -/
theorem summary_streak_iff_counterexample :
    (fetchDocs twoDayStore "u" 1).length = 1 ∧
      ¬(((stats_summary twoDayStore "u" 1 0).streak = 1) ↔
        ((∀ i : Nat, i < 1 → userHasCheckinOn twoDayStore "u" (0 - (i : ℤ))) ∧
          ¬ userHasCheckinOn twoDayStore "u" (0 - ((1 : Nat) : ℤ)))) := by
  constructor
  · decide
  · intro hiff
    have hstreak : (stats_summary twoDayStore "u" 1 0).streak = 1 := by decide
    have h2 := (hiff.1 hstreak).2
    apply h2
    unfold userHasCheckinOn
    decide

/-- Claim C2 (amended): for every K ≥ 1, the summary's streak equals K if
and only if the fetched records include a check-in on each of the K
consecutive calendar days ending at today, include none on day
K+1-before-today (date today − K), and include none dated after today.
(The original claim read the two occupancy conditions over the user's full
history; the fetch window `days` can truncate that history, and a fetched
future-dated record zeroes the walk, so both conditions must be read over
the fetched records.) -/
theorem summary_streak_eq_iff_fetched (store : List CheckinDoc)
    (uid : String) (days : Nat) (today : Int) (K : Nat) (hK : 1 ≤ K) :
    (stats_summary store uid days today).streak = K ↔
      ((∀ i : Nat, i < K →
          ∃ d ∈ fetchDocs store uid days, d.date = today - i) ∧
        (¬ ∃ d ∈ fetchDocs store uid days, d.date = today - K) ∧
        ∀ d ∈ fetchDocs store uid days, d.date ≤ today) := by
  rw [stats_summary_streak_eq,
    streakWalk_eq_iff (uniqueDatesDesc_pairwise _) hK]
  simp only [uniqueDatesDesc_mem, List.mem_map]
  constructor
  · intro h
    refine ⟨fun i hi => ?_, fun hex => ?_, fun d hd => ?_⟩
    · obtain ⟨d, hd, hdate⟩ := h.1 i hi
      exact ⟨d, hd, hdate⟩
    · obtain ⟨d, hd, hdate⟩ := hex
      exact h.2.1 ⟨d, hd, hdate⟩
    · exact h.2.2 d.date ⟨d, hd, rfl⟩
  · intro h
    refine ⟨fun i hi => ?_, fun hex => ?_, fun x hx => ?_⟩
    · obtain ⟨d, hd, hdate⟩ := h.1 i hi
      exact ⟨d, hd, hdate⟩
    · obtain ⟨d, hd, hdate⟩ := hex
      exact h.2.1 ⟨d, hd, hdate⟩
    · obtain ⟨d, hd, hdate⟩ := hx
      exact hdate ▸ h.2.2 d hd

/-- Witness for the amended C2: with a window of 5 days over `twoDayStore`,
streak 2 is characterised by the fetched records. -/
theorem summary_streak_eq_iff_fetched_witness :
    1 ≤ 2 ∧
      ((stats_summary twoDayStore "u" 5 0).streak = 2 ↔
        ((∀ i : Nat, i < 2 →
            ∃ d ∈ fetchDocs twoDayStore "u" 5, d.date = 0 - i) ∧
          (¬ ∃ d ∈ fetchDocs twoDayStore "u" 5, d.date = 0 - (2 : Nat)) ∧
          ∀ d ∈ fetchDocs twoDayStore "u" 5, d.date ≤ 0)) :=
  ⟨by decide, summary_streak_eq_iff_fetched twoDayStore "u" 5 0 2 (by decide)⟩

/-! ## Check-in upsert lemmas -/

theorem matchesPair_iff {uid : String} {dt : Int} {d : CheckinDoc} :
    matchesPair uid dt d = true ↔ d.user_id = uid ∧ d.date = dt := by
  simp [matchesPair]

theorem filter_singleton_of_le_one {α : Type} {p : α → Bool} {l : List α}
    {x : α} (hx : x ∈ l) (hpx : p x = true)
    (hlen : (l.filter p).length ≤ 1) : l.filter p = [x] := by
  have hmem : x ∈ l.filter p := List.mem_filter.2 ⟨hx, hpx⟩
  cases hf : l.filter p with
  | nil => rw [hf] at hmem; simp at hmem
  | cons a as =>
    rw [hf] at hmem hlen
    cases as with
    | nil =>
      have : x = a := by simpa using hmem
      rw [this]
    | cons b bs => simp at hlen

theorem filter_parts_of_singleton {α : Type} {p : α → Bool} {l : List α}
    {x : α} (hf : l.filter p = [x]) :
    ∃ pre post, l = pre ++ x :: post ∧ (∀ y ∈ pre, p y = false) ∧
      (∀ y ∈ post, p y = false) := by
  have hxmem : x ∈ l.filter p := by rw [hf]; simp
  have hxl : x ∈ l := (List.mem_filter.1 hxmem).1
  have hpx : p x = true := (List.mem_filter.1 hxmem).2
  obtain ⟨pre, post,
    rfl⟩ := List.append_of_mem hxl
  rw [List.filter_append, List.filter_cons_of_pos hpx] at hf
  cases hp : pre.filter p with
  | cons a as => rw [hp] at hf; simp at hf
  | nil =>
    rw [hp, List.nil_append] at hf
    have hpost : post.filter p = [] := by simpa using hf
    refine ⟨pre, post, rfl, ?_, ?_⟩
    · intro y hy
      have := List.filter_eq_nil_iff.1 hp y hy
      simpa using this
    · intro y hy
      have := List.filter_eq_nil_iff.1 hpost y hy
      simpa using this

/-- One call to `create_checkin`, from a well-formed store holding at most
one record for the resolved `(user_id, date)` pair: afterwards exactly one
record for the pair exists, it is the document the endpoint returns, its
payload fields are the submission's values, and the store is again
well-formed with the other documents untouched. -/
theorem create_checkin_spec (st : CheckinState) (payload : CheckinPayload)
    (header : Option String) (now : Int) (hWF : st.WF)
    (hpair :
      (st.docs.filter
        (matchesPair (pyOrStr payload.user_id (get_user_id header))
          payload.date)).length ≤ 1) :
    ∃ d : CheckinDoc,
      (create_checkin st payload header now).1.docs.filter
          (matchesPair (pyOrStr payload.user_id (get_user_id header))
            payload.date) = [d] ∧
      (create_checkin st payload header now).2 = some d ∧
      d.user_id = pyOrStr payload.user_id (get_user_id header) ∧
      d.date = payload.date ∧ d.p = some payload.p ∧ d.e = some payload.e ∧
      d.r = some payload.r ∧ d.m = some payload.m ∧ d.a = some payload.a ∧
      d.note = payload.note ∧
      (create_checkin st payload header now).1.WF := by
  obtain ⟨hnodup, hbound⟩ := hWF
  cases hfind :
      st.docs.find? (matchesPair (pyOrStr payload.user_id (get_user_id header))
        payload.date) with
  | none =>
    simp only [create_checkin, hfind, CheckinState.WF]
    set uid := pyOrStr payload.user_id (get_user_id header) with huid
    set created : CheckinDoc :=
      { id := st.nextId, user_id := uid, date := payload.date,
        p := some payload.p, e := some payload.e, r := some payload.r,
        m := some payload.m, a := some payload.a, note := payload.note,
        created_at := some now, updated_at := none } with hcreated
    have hnone : ∀ y ∈ st.docs, matchesPair uid payload.date y = false := by
      intro y hy
      have := List.find?_eq_none.1 hfind y hy
      simpa using this
    have hfilter : st.docs.filter (matchesPair uid payload.date) = [] :=
      List.filter_eq_nil_iff.2 fun y hy => by simp [hnone y hy]
    have hcm : matchesPair uid payload.date created = true := by
      rw [matchesPair_iff]
      exact ⟨rfl, rfl⟩
    refine ⟨created, ?_, ?_, rfl, rfl, rfl, rfl, rfl, rfl, rfl, rfl, ?_, ?_⟩
    · rw [List.filter_append, hfilter, List.filter_cons_of_pos hcm]
      rfl
    · rw [find?_append_of_none]
      · simp
      · intro y hy
        have := hbound y hy
        simp only [beq_eq_false_iff_ne, ne_eq]
        omega
    · rw [List.map_append]
      refine List.Nodup.append hnodup (by simp) ?_
      intro a ha hb
      simp only [List.map_cons, List.map_nil, List.mem_singleton] at hb
      rw [List.mem_map] at ha
      obtain ⟨y, hy, hyid⟩ := ha
      have := hbound y hy
      rw [hb] at hyid
      omega
    · intro d hd
      rcases List.mem_append.1 hd with hd | hd
      · have := hbound d hd
        omega
      · simp only [List.mem_singleton] at hd
        subst hd
        simp
  | some ex =>
    have hexmem : ex ∈ st.docs := List.mem_of_find?_eq_some hfind
    have hexmatch :
        matchesPair (pyOrStr payload.user_id (get_user_id header))
          payload.date ex = true :=
      List.find?_some hfind
    simp only [create_checkin, hfind, CheckinState.WF]
    set uid := pyOrStr payload.user_id (get_user_id header) with huid
    have hfilter : st.docs.filter (matchesPair uid payload.date) = [ex] :=
      filter_singleton_of_le_one hexmem hexmatch hpair
    obtain ⟨pre, post, hdecomp, hpre, hpost⟩ :=
      filter_parts_of_singleton hfilter
    have hids : (st.docs.map (·.id)).Nodup := hnodup
    rw [hdecomp, List.map_append, List.map_cons] at hids
    have hmid := List.nodup_middle.1 hids
    rw [List.nodup_cons, List.mem_append] at hmid
    have hpreid : ∀ y ∈ pre, (y.id == ex.id) = false := by
      intro y hy
      simp only [beq_eq_false_iff_ne, ne_eq]
      intro hid
      exact hmid.1 (Or.inl (List.mem_map.2 ⟨y, hy, hid⟩))
    have hupd :
        update_one st.docs (fun d => d.id == ex.id)
          (setPayload uid payload now) =
        (pre ++ setPayload uid payload now ex :: post, 1) := by
      rw [hdecomp]
      exact update_one_parts hpreid (by simp)
    set upd := setPayload uid payload now ex with hupdoc
    have hum : matchesPair uid payload.date upd = true := by
      rw [matchesPair_iff]
      exact ⟨rfl, rfl⟩
    rw [hupd]
    refine ⟨upd, ?_, ?_, rfl, rfl, rfl, rfl, rfl, rfl, rfl, rfl, ?_, ?_⟩
    · rw [List.filter_append, List.filter_cons_of_pos hum,
        List.filter_eq_nil_iff.2 fun y hy => by simp [hpre y hy],
        List.filter_eq_nil_iff.2 fun y hy => by simp [hpost y hy]]
      rfl
    · rw [find?_append_of_none hpreid]
      have hid : (upd.id == ex.id) = true := by
        simp [hupdoc, setPayload]
      simp only [List.find?, hid]
    · rw [List.map_append, List.map_cons]
      have hupid : upd.id = ex.id := rfl
      rw [hupid]
      exact hids
    · intro d hd
      rcases List.mem_append.1 hd with hd | hd
      · exact hbound d (by rw [hdecomp]; exact List.mem_append.2 (Or.inl hd))
      · rcases List.mem_cons.1 hd with rfl | hd
        · have hexlt : ex.id < st.nextId :=
            hbound ex (by rw [hdecomp]; simp)
          exact hexlt
        · exact hbound d
            (by rw [hdecomp]; exact List.mem_append.2 (Or.inr (by simp [hd])))

/-! ## Claims about the check-in upsert -/

/-- Claim C1: for every user_id and date, after any call to the check-in
submission operation (from a well-formed store holding at most one record
for the pair, the invariant the upsert maintains), exactly one check-in
record exists for that (user_id, date) pair; and when the same
(user_id, date) is submitted twice with different scores, the remaining
record's fields equal the second submission's values. -/
theorem checkin_upsert_unique_and_last_write_wins
    (st : CheckinState) (p1 p2 : CheckinPayload) (h1 h2 : Option String)
    (t1 t2 : Int) (uid : String) (dt : Int) (hWF : st.WF)
    (hu1 : pyOrStr p1.user_id (get_user_id h1) = uid)
    (hu2 : pyOrStr p2.user_id (get_user_id h2) = uid)
    (hd1 : p1.date = dt) (hd2 : p2.date = dt)
    (hpair : (st.docs.filter (matchesPair uid dt)).length ≤ 1)
    (_hdiff :
      (p1.p, p1.e, p1.r, p1.m, p1.a) ≠ (p2.p, p2.e, p2.r, p2.m, p2.a)) :
    (((create_checkin st p1 h1 t1).1.docs.filter
        (matchesPair uid dt)).length = 1) ∧
      ∃ d : CheckinDoc,
        (create_checkin (create_checkin st p1 h1 t1).1 p2 h2 t2).1.docs.filter
            (matchesPair uid dt) = [d] ∧
        (create_checkin (create_checkin st p1 h1 t1).1 p2 h2 t2).2 =
          some d ∧
        d.user_id = uid ∧ d.date = dt ∧ d.p = some p2.p ∧ d.e = some p2.e ∧
        d.r = some p2.r ∧ d.m = some p2.m ∧ d.a = some p2.a ∧
        d.note = p2.note := by
  have hpair1 :
      (st.docs.filter
        (matchesPair (pyOrStr p1.user_id (get_user_id h1))
          p1.date)).length ≤ 1 := by
    rw [hu1, hd1]; exact hpair
  obtain ⟨d1, hf1, _, _, _, _, _, _, _, _, _, hWF1⟩ :=
    create_checkin_spec st p1 h1 t1 hWF hpair1
  rw [hu1, hd1] at hf1
  refine ⟨by rw [hf1]; rfl, ?_⟩
  have hpair2 :
      ((create_checkin st p1 h1 t1).1.docs.filter
        (matchesPair (pyOrStr p2.user_id (get_user_id h2))
          p2.date)).length ≤ 1 := by
    rw [hu2, hd2, hf1]
    simp
  obtain ⟨d2, hf2, hr2, hdu2, hdd2, hp2, he2, hrr2, hm2, ha2, hn2, _⟩ :=
    create_checkin_spec (create_checkin st p1 h1 t1).1 p2 h2 t2 hWF1 hpair2
  rw [hu2, hd2] at hf2
  rw [hu2] at hdu2
  rw [hd2] at hdd2
  exact ⟨d2, hf2, hr2, hdu2, hdd2, hp2, he2, hrr2, hm2, ha2, hn2⟩

/-- Witness for C1: two submissions for user `"u"`, day 7 into an empty
store. -/
theorem checkin_upsert_unique_and_last_write_wins_witness :
    (emptyCheckins.WF ∧
      (emptyCheckins.docs.filter (matchesPair "u" 7)).length ≤ 1) ∧
      ((((create_checkin emptyCheckins payloadA none 10).1.docs.filter
          (matchesPair "u" 7)).length = 1) ∧
        ∃ d : CheckinDoc,
          (create_checkin (create_checkin emptyCheckins payloadA none 10).1
              payloadB none 20).1.docs.filter (matchesPair "u" 7) = [d] ∧
          (create_checkin (create_checkin emptyCheckins payloadA none 10).1
              payloadB none 20).2 = some d ∧
          d.user_id = "u" ∧ d.date = 7 ∧ d.p = some payloadB.p ∧
          d.e = some payloadB.e ∧ d.r = some payloadB.r ∧
          d.m = some payloadB.m ∧ d.a = some payloadB.a ∧
          d.note = payloadB.note) :=
  ⟨⟨⟨by simp [emptyCheckins], by simp [emptyCheckins]⟩, by decide⟩,
    checkin_upsert_unique_and_last_write_wins emptyCheckins payloadA payloadB
      none none 10 20 "u" 7 ⟨by simp [emptyCheckins], by simp [emptyCheckins]⟩
      (by decide) (by decide) (by decide) (by decide) (by decide) (by decide)⟩

/-- Claim C10: for every check-in, goal, or reflection creation request
whose payload carries a non-empty user_id, the record is stored under the
payload's user_id, which takes precedence over the identity resolved from
the caller's header; the header identity (or the anonymous default) is used
only when the payload's user_id is absent or empty. -/
theorem payload_user_id_precedence
    (u : String) (hne : u ≠ "") (header : Option String)
    (st : CheckinState) (cp : CheckinPayload) (hcp : cp.user_id = some u)
    (hWF : st.WF)
    (hpair : (st.docs.filter (matchesPair u cp.date)).length ≤ 1)
    (gstore : List GoalDoc) (gid : Nat) (gp : GoalPayload)
    (hgp : gp.user_id = some u)
    (rstore : List ReflectionDoc) (rid : Nat) (rp : ReflectionPayload)
    (hrp : rp.user_id = some u) (t : Int) :
    (∃ d ∈ (create_checkin st cp header t).1.docs,
        (create_checkin st cp header t).2 = some d ∧ d.user_id = u) ∧
      ((create_goal gstore gid gp header t).2.user_id = u ∧
        (create_goal gstore gid gp header t).2 ∈
          (create_goal gstore gid gp header t).1) ∧
      ((create_reflection rstore rid rp header t).2.user_id = u ∧
        (create_reflection rstore rid rp header t).2 ∈
          (create_reflection rstore rid rp header t).1) ∧
      ∀ hv : Option String,
        pyOrStr none (get_user_id hv) = get_user_id hv ∧
        pyOrStr (some "") (get_user_id hv) = get_user_id hv := by
  have hres : pyOrStr cp.user_id (get_user_id header) = u := by
    rw [hcp]
    simp [pyOrStr, hne]
  have hpair' :
      (st.docs.filter
        (matchesPair (pyOrStr cp.user_id (get_user_id header))
          cp.date)).length ≤ 1 := by
    rw [hres]; exact hpair
  obtain ⟨d, hf, hr, hdu, _⟩ := create_checkin_spec st cp header t hWF hpair'
  have hdmem : d ∈ (create_checkin st cp header t).1.docs := by
    have hdf : d ∈ (create_checkin st cp header t).1.docs.filter
        (matchesPair (pyOrStr cp.user_id (get_user_id header)) cp.date) := by
      rw [hf]; simp
    exact List.mem_of_mem_filter hdf
  refine ⟨⟨d, hdmem, hr, by rw [hdu, hres]⟩, ⟨?_, ?_⟩, ⟨?_, ?_⟩, fun hv => ⟨rfl, by simp [pyOrStr]⟩⟩
  · simp [create_goal, hgp, pyOrStr, hne]
  · simp [create_goal]
  · simp [create_reflection, hrp, pyOrStr, hne]
  · simp [create_reflection]

/-- Witness for C10: payload user `"alice"` wins over header `"bob"` on all
three creation endpoints. -/
theorem payload_user_id_precedence_witness :
    ("alice" ≠ "" ∧ wCheckinPayload.user_id = some "alice" ∧
        emptyCheckins.WF ∧ wGoalPayload.user_id = some "alice" ∧
        wReflectionPayload.user_id = some "alice") ∧
      ((∃ d ∈ (create_checkin emptyCheckins wCheckinPayload
            (some "bob") 0).1.docs,
          (create_checkin emptyCheckins wCheckinPayload (some "bob") 0).2 =
            some d ∧ d.user_id = "alice") ∧
        ((create_goal [] 0 wGoalPayload (some "bob") 0).2.user_id =
            "alice" ∧
          (create_goal [] 0 wGoalPayload (some "bob") 0).2 ∈
            (create_goal [] 0 wGoalPayload (some "bob") 0).1) ∧
        ((create_reflection [] 0 wReflectionPayload
              (some "bob") 0).2.user_id = "alice" ∧
          (create_reflection [] 0 wReflectionPayload (some "bob") 0).2 ∈
            (create_reflection [] 0 wReflectionPayload (some "bob") 0).1) ∧
        ∀ hv : Option String,
          pyOrStr none (get_user_id hv) = get_user_id hv ∧
          pyOrStr (some "") (get_user_id hv) = get_user_id hv) :=
  ⟨⟨by decide, by decide, ⟨by simp [emptyCheckins], by simp [emptyCheckins]⟩,
      by decide, by decide⟩,
    payload_user_id_precedence "alice" (by decide) (some "bob")
      emptyCheckins wCheckinPayload (by decide)
      ⟨by simp [emptyCheckins], by simp [emptyCheckins]⟩ (by decide)
      [] 0 wGoalPayload (by decide) [] 0 wReflectionPayload (by decide) 0⟩

/-! ## Claims about goals -/

/-- Claim C6: for every existing goal owned by the caller, a partial update
applies exactly the non-null fields of the patch plus a fresh `updated_at`,
leaving every other field (and every other goal) unchanged; in particular a
patch supplying only `progress` changes only `progress` and `updated_at`,
leaving `title`, `dimension`, `cadence`, and `status` unchanged. -/
theorem update_goal_applies_only_nonnull
    (store : List GoalDoc) (g : GoalDoc) (patch : GoalPatch)
    (header : Option String) (now : Int)
    (hnodup : (store.map (·.id)).Nodup) (hg : g ∈ store)
    (hown : g.user_id = get_user_id header)
    (hup : patch.hasUpdates = true) :
    ∃ pre post : List GoalDoc,
      store = pre ++ g :: post ∧
      update_goal store g.id patch header now =
        (.ok (some (applyPatch patch now g)),
          pre ++ applyPatch patch now g :: post) ∧
      (applyPatch patch now g).title = patch.title.getD g.title ∧
      (applyPatch patch now g).dimension =
        patch.dimension.getD g.dimension ∧
      (applyPatch patch now g).cadence = patch.cadence.getD g.cadence ∧
      (applyPatch patch now g).status = patch.status.getD g.status ∧
      (applyPatch patch now g).progress = patch.progress.getD g.progress ∧
      (applyPatch patch now g).updated_at = some now ∧
      (applyPatch patch now g).created_at = g.created_at ∧
      (applyPatch patch now g).user_id = g.user_id ∧
      (applyPatch patch now g).id = g.id := by
  obtain ⟨pre, post, hdecomp⟩ := List.append_of_mem hg
  subst hdecomp
  rw [List.map_append, List.map_cons] at hnodup
  have hmid := List.nodup_middle.1 hnodup
  rw [List.nodup_cons, List.mem_append] at hmid
  have hpreid : ∀ y ∈ pre,
      (y.id == g.id && y.user_id == get_user_id header) = false := by
    intro y hy
    have hyne : y.id ≠ g.id := fun hid =>
      hmid.1 (Or.inl (List.mem_map.2 ⟨y, hy, hid⟩))
    simp [hyne]
  have hpredg : (g.id == g.id && g.user_id == get_user_id header) = true := by
    simp [hown]
  have hupd :
      update_one (pre ++ g :: post)
        (fun y => y.id == g.id && y.user_id == get_user_id header)
        (applyPatch patch now) =
      (pre ++ applyPatch patch now g :: post, 1) :=
    update_one_parts hpreid hpredg
  refine ⟨pre, post, rfl, ?_, rfl, rfl, rfl, rfl, rfl, rfl, rfl, rfl, rfl⟩
  unfold update_goal
  rw [hup]
  simp only [if_true, hupd]
  have hfind :
      (pre ++ applyPatch patch now g :: post).find? (fun y => y.id == g.id) =
        some (applyPatch patch now g) := by
    rw [find?_append_of_none]
    · simp only [List.find?]
      have : ((applyPatch patch now g).id == g.id) = true := by
        simp [applyPatch]
      rw [this]
    · intro y hy
      have hyne : y.id ≠ g.id := fun hid =>
        hmid.1 (Or.inl (List.mem_map.2 ⟨y, hy, hid⟩))
      simp [hyne]
  simp [hfind]

/-- Witness for C6: patching only `progress` on `goalA`. -/
theorem update_goal_applies_only_nonnull_witness :
    (([goalA].map (·.id)).Nodup ∧ goalA ∈ [goalA] ∧
        goalA.user_id = get_user_id (some "alice") ∧
        progressPatch.hasUpdates = true) ∧
      ∃ pre post : List GoalDoc,
        [goalA] = pre ++ goalA :: post ∧
        update_goal [goalA] goalA.id progressPatch (some "alice") 200 =
          (.ok (some (applyPatch progressPatch 200 goalA)),
            pre ++ applyPatch progressPatch 200 goalA :: post) ∧
        (applyPatch progressPatch 200 goalA).title =
          progressPatch.title.getD goalA.title ∧
        (applyPatch progressPatch 200 goalA).dimension =
          progressPatch.dimension.getD goalA.dimension ∧
        (applyPatch progressPatch 200 goalA).cadence =
          progressPatch.cadence.getD goalA.cadence ∧
        (applyPatch progressPatch 200 goalA).status =
          progressPatch.status.getD goalA.status ∧
        (applyPatch progressPatch 200 goalA).progress =
          progressPatch.progress.getD goalA.progress ∧
        (applyPatch progressPatch 200 goalA).updated_at = some 200 ∧
        (applyPatch progressPatch 200 goalA).created_at = goalA.created_at ∧
        (applyPatch progressPatch 200 goalA).user_id = goalA.user_id ∧
        (applyPatch progressPatch 200 goalA).id = goalA.id :=
  ⟨⟨by decide, by decide, by decide, by decide⟩,
    update_goal_applies_only_nonnull [goalA] goalA progressPatch
      (some "alice") 200 (by decide) (by decide) (by decide) (by decide)⟩

/-- Claim C7: for every goal whose owner differs from the caller's resolved
identity, updating or deleting it reports not-found and never succeeds, and
the stored collection is unchanged by the attempt (an all-null patch is
likewise rejected, as a no-op-update client error, and also never
succeeds). -/
theorem foreign_goal_update_delete_not_found
    (store : List GoalDoc) (g : GoalDoc) (gid : Nat) (header : Option String)
    (hnodup : (store.map (·.id)).Nodup) (hg : g ∈ store) (hid : g.id = gid)
    (hforeign : g.user_id ≠ get_user_id header) :
    (∀ (patch : GoalPatch) (now : Int),
        (patch.hasUpdates = true →
          update_goal store gid patch header now =
            (.error .notFound, store)) ∧
        ∃ e : GoalError, update_goal store gid patch header now =
          (.error e, store)) ∧
      delete_goal store gid header = (.error .notFound, store) := by
  have hnone : ∀ y ∈ store,
      (y.id == gid && y.user_id == get_user_id header) = false := by
    intro y hy
    by_cases hyid : y.id = gid
    · have hyg : y = g :=
        List.inj_on_of_nodup_map hnodup hy hg (by rw [hyid, hid])
      subst hyg
      simp [hforeign]
    · simp [hyid]
  constructor
  · intro patch now
    by_cases hup : patch.hasUpdates = true
    · have hmain : update_goal store gid patch header now =
          (.error .notFound, store) := by
        simp only [update_goal, hup, if_true, update_one_of_none hnone]
      exact ⟨fun _ => hmain, ⟨.notFound, hmain⟩⟩
    · have hmain : update_goal store gid patch header now =
          (.error .noUpdates, store) := by
        rw [Bool.not_eq_true] at hup
        simp only [update_goal, hup]
        rfl
      exact ⟨fun h => absurd h hup, ⟨.noUpdates, hmain⟩⟩
  · simp only [delete_goal, delete_one_of_none hnone]
    rfl

/-- Witness for C7: the anonymous caller cannot update or delete
`"alice"`'s goal. -/
theorem foreign_goal_update_delete_not_found_witness :
    (([goalA].map (·.id)).Nodup ∧ goalA ∈ [goalA] ∧ goalA.id = 5 ∧
        goalA.user_id ≠ get_user_id none) ∧
      ((∀ (patch : GoalPatch) (now : Int),
          (patch.hasUpdates = true →
            update_goal [goalA] 5 patch none now =
              (.error .notFound, [goalA])) ∧
          ∃ e : GoalError, update_goal [goalA] 5 patch none now =
            (.error e, [goalA])) ∧
        delete_goal [goalA] 5 none = (.error .notFound, [goalA])) :=
  ⟨⟨by decide, by decide, by decide, by decide⟩,
    foreign_goal_update_delete_not_found [goalA] goalA 5 none (by decide)
      (by decide) (by decide) (by decide)⟩

/-! ## Claims about schema validation -/

/-- Claim C9 as stated is false on the code: src/schemas.py declares
`title : str` with no non-emptiness constraint, so a goal payload with an
empty title passes validation (and proceeds to storage) instead of being
rejected. -/
theorem goal_empty_title_accepted :
    validateGoal
        { user_id := none, title := some "", dimension := some "P",
          cadence := none, status := none, progress := none } =
      some { user_id := none, title := "", dimension := .P,
             cadence := .daily, status := .active, progress := 0 } := by
  decide

/-- Claim C9 (amended): for every goal creation request, the title is
required to be present (a string); a payload missing the title field is
rejected as a validation failure before reaching storage, but an
empty-string title is accepted — validation checks presence, not
non-emptiness. -/
theorem goal_title_presence_required (uid : Option String) (t : String)
    (inp : GoalInput) :
    (validateGoal
        { user_id := uid, title := some t, dimension := some "P",
          cadence := none, status := none, progress := none } =
      some { user_id := uid, title := t, dimension := .P,
             cadence := .daily, status := .active, progress := 0 }) ∧
    (inp.title = none → validateGoal inp = none) := by
  constructor
  · rfl
  · intro h
    rcases inp with ⟨u, ti, di, ca, st, pr⟩
    simp only at h
    subst h
    cases di <;> rfl

/-- Witness for the amended C9: a one-character title is accepted and a
missing title is rejected. -/
theorem goal_title_presence_required_witness :
    (validateGoal
        { user_id := none, title := some "x", dimension := some "P",
          cadence := none, status := none, progress := none } =
      some { user_id := none, title := "x", dimension := .P,
             cadence := .daily, status := .active, progress := 0 }) ∧
    validateGoal
        { user_id := none, title := none, dimension := some "P",
          cadence := none, status := none, progress := none } = none :=
  ⟨(goal_title_presence_required none "x"
      { user_id := none, title := none, dimension := some "P",
        cadence := none, status := none, progress := none }).1,
    (goal_title_presence_required none "x"
      { user_id := none, title := none, dimension := some "P",
        cadence := none, status := none, progress := none }).2 rfl⟩

/-- Claim C8 is violated by the code: `"not-a-date"` is not a well-formed
ISO 8601 calendar date, yet the `CheckIn` schema of src/schemas.py declares
`date : str` with no format constraint, so the submission passes validation
unchanged and reaches the upsert rule (where it is stored; the summary
endpoint would later fail parsing it). -/
theorem malformed_date_passes_validation :
    isIsoDate "not-a-date" = false ∧
      validateCheckIn
          { user_id := none, date := some "not-a-date", p := some 5,
            e := some 5, r := some 5, m := some 5, a := some 5,
            note := none } "2024-01-03" =
        some { user_id := none, date := "not-a-date", p := 5, e := 5, r := 5,
               m := 5, a := 5, note := none } := by
  constructor
  · decide
  · decide

end Perma
